import Mathlib

/-!
Verification of the acceptor and the greater-equal map of the
abstract-paxos repository.

The embedding is shallow: the generic parameter `T: Types` of the Rust
code becomes three type parameters `Time`, `Part` and `Pv` (the type of
`Proposal<T, T::Part>`), and the `GreaterEqual` trait becomes an explicit
relation `ge : Time → Time → Bool` passed to each operation that uses it.
Mutation of `&mut self` becomes returning the new acceptor state next to
the original return value.  The `HashMap` inside `Map<K, V>` is embedded
as a list of key-value pairs.
-/

namespace APaxos

/-- The `Accepted` struct: a value accepted at a given time. -/
structure Accepted (Time Pv : Type) where
  accept_time : Time
  proposal : Pv
  deriving Repr, DecidableEq

/-- The `Acceptor` struct from acceptor.rs: a store of time-keyed parts,
the current time, and the optionally accepted value. -/
structure Acceptor (Time Part Pv : Type) where
  store : List (Time × Part)
  time : Time
  accepted : Option (Accepted Time Pv)
  deriving Repr, DecidableEq

/-- `Acceptor::default()`: empty store, default time, nothing accepted.
The default time of the `Time` type is passed explicitly as `t0`. -/
def Acceptor.initial {Time Part Pv : Type} (t0 : Time) : Acceptor Time Part Pv :=
  { store := [], time := t0, accepted := none }

/-- `handle_phase1_request` from acceptor.rs lines 69-80, embedded
faithfully: the `let now = self.time;` on line 73 shadows the `now`
parameter before the comparison on line 75 is made.  The Rust function
mutates `self` and returns `(now, self.clone())`; here the result is
`((prior, snapshot), newSelf)`. -/
def Acceptor.handle_phase1_request {Time Part Pv : Type}
    (ge : Time → Time → Bool) (self : Acceptor Time Part Pv) (now : Time) :
    (Time × Acceptor Time Part Pv) × Acceptor Time Part Pv :=
  let now := self.time
  let self1 := if ge now self.time then { self with time := now } else self
  ((now, self1), self1)

/-- `handle_phase1_revert_request` from acceptor.rs lines 88-98: revert
the time to `prev` when the current time equals `now` by value equality,
returning whether the revert happened, together with the new state. -/
def Acceptor.handle_phase1_revert_request {Time Part Pv : Type} [DecidableEq Time]
    (self : Acceptor Time Part Pv) (now prev : Time) :
    Bool × Acceptor Time Part Pv :=
  if now = self.time then
    (true, { self with time := prev })
  else
    (false, self)

/-- `handle_phase2_request` from acceptor.rs lines 100-117: accept the
proposal at time `t` when `t.greater_equal(self.time)` holds, returning
whether it was accepted, together with the new state. -/
def Acceptor.handle_phase2_request {Time Part Pv : Type}
    (ge : Time → Time → Bool) (self : Acceptor Time Part Pv)
    (t : Time) (proposal : Pv) :
    Bool × Acceptor Time Part Pv :=
  if ge t self.time then
    (true, { self with time := t, accepted := some ⟨t, proposal⟩ })
  else
    (false, self)

/-- The `Validate` impl for `Acceptor` (acceptor.rs lines 30-37): when a
value is accepted, the current time must be greater-equal to the time at
which it was accepted. -/
def Acceptor.validate {Time Part Pv : Type}
    (ge : Time → Time → Bool) (self : Acceptor Time Part Pv) : Bool :=
  match self.accepted with
  | some acc => ge self.time acc.accept_time
  | none => true

/-- One request to the acceptor: one of the three message handlers
together with its arguments. -/
inductive Op (Time Pv : Type) where
  | phase1 (now : Time)
  | phase1Revert (now prev : Time)
  | phase2 (t : Time) (p : Pv)
  deriving Repr, DecidableEq

/-- Whether an operation is a phase-1 revert request. -/
def Op.isRevert {Time Pv : Type} : Op Time Pv → Bool
  | .phase1Revert _ _ => true
  | _ => false

/-- Apply one request to the acceptor state, keeping only the state. -/
def applyOp {Time Part Pv : Type} [DecidableEq Time]
    (ge : Time → Time → Bool) (self : Acceptor Time Part Pv) :
    Op Time Pv → Acceptor Time Part Pv
  | .phase1 now => (self.handle_phase1_request ge now).2
  | .phase1Revert now prev => (self.handle_phase1_revert_request now prev).2
  | .phase2 t p => (self.handle_phase2_request ge t p).2

/-- Run a finite sequence of requests against the acceptor. -/
def runOps {Time Part Pv : Type} [DecidableEq Time]
    (ge : Time → Time → Bool) (self : Acceptor Time Part Pv)
    (ops : List (Op Time Pv)) : Acceptor Time Part Pv :=
  ops.foldl (applyOp ge) self

/-- `Map::maximals` from greater_equal_map.rs lines 63-74: keep the
entries whose key is greater-equal to every key that is greater-equal to
it. -/
def maximals {K V : Type} (ge : K → K → Bool) (inner : List (K × V)) :
    List (K × V) :=
  inner.filter fun kv1 =>
    inner.all fun kv2 =>
      if ge kv2.1 kv1.1 then ge kv1.1 kv2.1 else true

/-- `Map::insert` (a `HashMap::insert`): replace the value when the key
is present, otherwise add the new entry. -/
def mapInsert {K V : Type} [BEq K] (inner : List (K × V)) (k : K) (v : V) :
    List (K × V) :=
  if inner.any (fun kv => kv.1 == k) then
    inner.map (fun kv => if kv.1 == k then (k, v) else kv)
  else
    inner ++ [(k, v)]

/-- Whether a phase-2 operation submits a time that is greater-equal to
itself; trivially true for the other operations. -/
def Op.phase2ReflOk {Time Pv : Type} (ge : Time → Time → Bool) :
    Op Time Pv → Bool
  | .phase2 t _ => ge t t
  | _ => true

/-- The natural-number order used as a concrete, reflexive and total
`GreaterEqual` instance: `a.greater_equal(b)` iff `b ≤ a`. -/
def natGe (a b : Nat) : Bool := b ≤ a

/-- A relation under which every two times are mutually greater-equal,
while value equality still distinguishes them. -/
def totalGe (_ _ : Nat) : Bool := true

/-- The divisibility relation of the `test_map_maximals` test in
greater_equal_map.rs: `a.greater_equal(b)` iff `a mod b == 0`. -/
def divGe (a b : Nat) : Bool := a % b == 0

/-- The store of `test_map_maximals` after inserting keys 2, 3, 6 with
themselves as values. -/
def store236 : List (Nat × Nat) :=
  mapInsert (mapInsert (mapInsert [] 2 2) 3 3) 6 6

/-- The same store after further inserting key 9. -/
def store2369 : List (Nat × Nat) := mapInsert store236 9 9

theorem phase1_state_eq {Time Part Pv : Type}
    (ge : Time → Time → Bool) (self : Acceptor Time Part Pv) (now : Time) :
    (self.handle_phase1_request ge now).2 = self := by
  unfold Acceptor.handle_phase1_request
  cases h : ge self.time self.time <;> simp [h]

theorem validate_step {Time Part Pv : Type} [DecidableEq Time]
    (ge : Time → Time → Bool) (op : Op Time Pv)
    (hop : (!op.isRevert && op.phase2ReflOk ge) = true)
    (self : Acceptor Time Part Pv) (h : self.validate ge = true) :
    (applyOp ge self op).validate ge = true := by
  cases op with
  | phase1 now =>
    rw [applyOp, phase1_state_eq]
    exact h
  | phase1Revert now prev =>
    simp [Op.isRevert] at hop
  | phase2 t p =>
    simp only [Op.isRevert, Op.phase2ReflOk, Bool.not_false, Bool.true_and] at hop
    rw [applyOp, Acceptor.handle_phase2_request]
    cases hge : ge t self.time with
    | false => simpa [hge] using h
    | true => simp [hge, Acceptor.validate, hop]

theorem runOps_validate {Time Part Pv : Type} [DecidableEq Time]
    (ge : Time → Time → Bool) (ops : List (Op Time Pv)) :
    ∀ self : Acceptor Time Part Pv,
      self.validate ge = true →
      (ops.all fun op => !op.isRevert && op.phase2ReflOk ge) = true →
      (runOps ge self ops).validate ge = true := by
  induction ops with
  | nil => intro self h _; exact h
  | cons op ops ih =>
    intro self h hall
    rw [List.all_cons, Bool.and_eq_true] at hall
    exact ih (applyOp ge self op) (validate_step ge op hall.1 self h) hall.2

/-- Claim C1: the spec states that `handle_phase1_request` advances
`self.time` to the candidate time whenever the candidate time dominates
the pre-call time.  Evaluating the code at a concrete input shows the
divergence: the acceptor starts at time 0, the candidate time 1
dominates 0 under the natural-number order, the pre-call time 0 is
returned as prior (as the claim states), yet `self.time` remains 0
instead of advancing to 1, because line 73 of acceptor.rs shadows the
`now` parameter with `self.time` before the comparison. -/
theorem C1_phase1_does_not_advance_time :
    natGe 1 (Acceptor.initial 0 : Acceptor Nat Unit Unit).time = true ∧
    ((Acceptor.initial 0 : Acceptor Nat Unit Unit).handle_phase1_request natGe 1).1.1 = 0 ∧
    ((Acceptor.initial 0 : Acceptor Nat Unit Unit).handle_phase1_request natGe 1).2.time = 0 ∧
    ((Acceptor.initial 0 : Acceptor Nat Unit Unit).handle_phase1_request natGe 1).2.time ≠ 1 := by
  refine ⟨rfl, rfl, rfl, by decide⟩

/-- Claim C2, counterexample: starting from the initial acceptor state
over natural-number times, the sequence `phase2(5)` then
`phase1_revert(5, 0)` leaves the acceptor with an accepted value at time
5 while `self.time` is 0, which is not greater-equal to 5: the claimed
invariant does not survive arbitrary revert requests. -/
theorem C2_counterexample :
    (runOps natGe (Acceptor.initial 0 : Acceptor Nat Unit Unit)
        [Op.phase2 5 (), Op.phase1Revert 5 0]).accepted =
      some { accept_time := 5, proposal := () } ∧
    natGe (runOps natGe (Acceptor.initial 0 : Acceptor Nat Unit Unit)
        [Op.phase2 5 (), Op.phase1Revert 5 0]).time 5 = false := by
  exact ⟨rfl, rfl⟩

/-- Claim C2, amended: starting from the initial acceptor state, after
every finite sequence of handler calls that contains no
`handle_phase1_revert_request` and in which every phase-2 request
submits a time `t` with `t.greater_equal(t)`, if `accepted` is `Some`
then `self.time.greater_equal(accepted.accept_time)` holds. -/
theorem C2_invariant_without_revert {Time Part Pv : Type} [DecidableEq Time]
    (ge : Time → Time → Bool) (t0 : Time) (ops : List (Op Time Pv))
    (hops : (ops.all fun op => !op.isRevert && op.phase2ReflOk ge) = true) :
    (runOps ge (Acceptor.initial t0 : Acceptor Time Part Pv) ops).validate ge = true :=
  runOps_validate ge ops (Acceptor.initial t0) rfl hops

theorem C2_invariant_without_revert_witness :
    ((([Op.phase2 3 (), Op.phase1 7] : List (Op Nat Unit)).all
        fun op => !op.isRevert && op.phase2ReflOk natGe) = true) ∧
    (runOps natGe (Acceptor.initial 0 : Acceptor Nat Unit Unit)
        [Op.phase2 3 (), Op.phase1 7]).validate natGe = true :=
  ⟨by decide, C2_invariant_without_revert natGe 0 [Op.phase2 3 (), Op.phase1 7] (by decide)⟩

/-- Claim C3: `handle_phase2_request(t, p)` returns true, sets
`self.time` to `t` and `accepted` to the pair of `t` and `p`, leaving
`store` unchanged, when `t.greater_equal(self.time)` holds at entry;
otherwise it returns false and leaves the whole state unchanged. -/
theorem C3_phase2_functional {Time Part Pv : Type}
    (ge : Time → Time → Bool) (self : Acceptor Time Part Pv)
    (t : Time) (p : Pv) :
    self.handle_phase2_request ge t p =
      if ge t self.time then
        (true, { store := self.store, time := t,
                 accepted := some { accept_time := t, proposal := p } })
      else
        (false, self) := rfl

/-- Claim C4: an entry is in `maximals` iff it is in the store and no
other key strictly dominates its key; and on the concrete store of the
test, the maximal keys of `{2, 3, 6}` under the divisibility relation
are exactly `[6]`, and after inserting 9 exactly `[6, 9]`. -/
theorem C4_maximals_characterization :
    (∀ (K V : Type) (ge : K → K → Bool) (l : List (K × V)) (e : K × V),
      e ∈ maximals ge l ↔
        e ∈ l ∧ ¬ ∃ k2, k2 ∈ l.map Prod.fst ∧ k2 ≠ e.1 ∧
          ge k2 e.1 = true ∧ ge e.1 k2 = false) ∧
    (maximals divGe store236).map Prod.fst = [6] ∧
    (maximals divGe store2369).map Prod.fst = [6, 9] := by
  refine ⟨?_, by decide, by decide⟩
  intro K V ge l e
  rw [maximals, List.mem_filter]
  constructor
  · rintro ⟨he, hall⟩
    refine ⟨he, ?_⟩
    rintro ⟨k2, hk2mem, _, hge21, hge12⟩
    rw [List.all_eq_true] at hall
    obtain ⟨kv2, hkv2, hk2eq⟩ := List.mem_map.mp hk2mem
    have hcond := hall kv2 hkv2
    rw [hk2eq, hge21] at hcond
    simp only [if_true] at hcond
    rw [hcond] at hge12
    exact Bool.true_eq_false.mp hge12
  · rintro ⟨he, hnex⟩
    refine ⟨he, ?_⟩
    rw [List.all_eq_true]
    intro kv2 hkv2
    cases h21 : ge kv2.1 e.1 with
    | false => simp [h21]
    | true =>
      simp only [h21, if_true]
      by_contra h12
      rw [Bool.not_eq_true] at h12
      rcases eq_or_ne kv2.1 e.1 with heq | hne
      · rw [heq] at h21 h12
        rw [h21] at h12
        exact Bool.true_eq_false.mp h12
      · exact hnex ⟨kv2.1, List.mem_map.mpr ⟨kv2, hkv2, rfl⟩, hne, h21, h12⟩

/-- Claim C5: `handle_phase1_revert_request(now, prev)` sets `self.time`
to `prev` and returns true exactly when `self.time` equals `now` by
value equality, leaving `store` and `accepted` unchanged; otherwise it
returns false and leaves the state untouched.  The second conjunct shows
mutual greater-equal without value equality is not sufficient: under a
relation where 1 and 0 are mutually greater-equal, the revert of an
acceptor at time 0 with `now = 1` still returns false and changes
nothing. -/
theorem C5_revert_functional :
    (∀ (Time Part Pv : Type) [DecidableEq Time]
        (self : Acceptor Time Part Pv) (now prev : Time),
      self.handle_phase1_revert_request now prev =
        if now = self.time then
          (true, { store := self.store, time := prev, accepted := self.accepted })
        else
          (false, self)) ∧
    totalGe 1 0 = true ∧ totalGe 0 1 = true ∧
    (Acceptor.initial 0 : Acceptor Nat Unit Unit).handle_phase1_revert_request 1 5 =
      (false, Acceptor.initial 0) := by
  exact ⟨fun Time Part Pv _ self now prev => rfl, rfl, rfl, rfl⟩

/-- Claim C6: the snapshot returned as the second component of the
result pair of `handle_phase1_request` equals the acceptor state as it
is immediately after the call. -/
theorem C6_snapshot_is_post_state {Time Part Pv : Type}
    (ge : Time → Time → Bool) (self : Acceptor Time Part Pv) (now : Time) :
    (self.handle_phase1_request ge now).1.2 =
      (self.handle_phase1_request ge now).2 := rfl

/-- Claim C7: `handle_phase1_request` leaves `accepted` unchanged, and
more generally mutates at most the `time` field, so `store` is also
unchanged. -/
theorem C7_phase1_preserves_accepted {Time Part Pv : Type}
    (ge : Time → Time → Bool) (self : Acceptor Time Part Pv) (now : Time) :
    (self.handle_phase1_request ge now).2.accepted = self.accepted ∧
    (self.handle_phase1_request ge now).2.store = self.store := by
  rw [phase1_state_eq]
  exact ⟨rfl, rfl⟩

/-- Claim C8: none of the three handlers modifies the `store` field. -/
theorem C8_handlers_preserve_store {Time Part Pv : Type} [DecidableEq Time]
    (ge : Time → Time → Bool) (self : Acceptor Time Part Pv)
    (now prev t : Time) (p : Pv) :
    (self.handle_phase1_request ge now).2.store = self.store ∧
    (self.handle_phase1_revert_request now prev).2.store = self.store ∧
    (self.handle_phase2_request ge t p).2.store = self.store := by
  refine ⟨by rw [phase1_state_eq], ?_, ?_⟩
  · rw [Acceptor.handle_phase1_revert_request]
    split <;> rfl
  · rw [Acceptor.handle_phase2_request]
    cases h : ge t self.time <;> simp [h]

/-- Claim C9: `handle_phase1_request` ignores its candidate-time
argument: two calls on the same state with different candidate times
return the same result and the same final state, and the final time
always equals the pre-call time. -/
theorem C9_phase1_ignores_argument {Time Part Pv : Type}
    (ge : Time → Time → Bool) (self : Acceptor Time Part Pv) (t1 t2 : Time) :
    self.handle_phase1_request ge t1 = self.handle_phase1_request ge t2 ∧
    (self.handle_phase1_request ge t1).2.time = self.time := by
  refine ⟨rfl, ?_⟩
  rw [phase1_state_eq]

/-- Claim C10: a store with exactly one entry yields exactly that entry
from `maximals`, for every greater-equal relation, reflexive on the
stored key or not. -/
theorem C10_singleton_maximal {K V : Type}
    (ge : K → K → Bool) (k : K) (v : V) :
    maximals ge [(k, v)] = [(k, v)] := by
  rw [maximals]
  cases h : ge k k <;> simp [h]

end APaxos
